import Mathlib

/-!
Shallow embedding of the spatialos-specs synchronization core.

The Rust sources embedded here:
  * src/src/lib.rs                `SpatialComponent` (replication state cell)
  * src/src/commands.rs           `CommandRequestsComp`, `CommandSenderRes`
  * src/src/component_registry.rs `ComponentDispatcher::replicate`
  * src/src/spatial_reader.rs     `SpatialReader::process`
  * src/example/src/generated.rs  the `Player` component and its merge rules

Machine state is passed explicitly; Rust panics are modelled as `Option`
failure or `Except.error` carrying the panic message.
-/

namespace SpatialSpecs

/-! ## Replication state cell (src/src/lib.rs) -/

/-- Per-component-type operations supplied by the generated code
(`ComponentData::merge`, `ComponentUpdate::merge`) and by
`SpatialComponent::to_update` (serialize the whole value as an update). -/
structure ComponentOps (V U : Type) where
  mergeData : V → U → V
  mergeUpdate : U → U → U
  toUpdate : V → U

/-- The `SpatialComponent` wrapper from src/src/lib.rs: cached value,
fully-dirty flag, and the optional pending update. -/
structure SpatialComponent (V U : Type) where
  value : V
  value_is_dirty : Bool
  current_update : Option U
deriving DecidableEq

/-- Constructor `SpatialComponent::new`. -/
def SpatialComponent.new {V U : Type} (v : V) : SpatialComponent V U :=
  { value := v, value_is_dirty := false, current_update := none }

/-- Embeds `SpatialComponent::replicate` (src/src/lib.rs lines 58-71):
returns the updated cell and the transmitted update, if any. If the cell is
fully dirty the flag is cleared and the whole value is serialized via
`to_update`; otherwise the pending update is taken (`Option::take`). -/
def SpatialComponent.replicate {V U : Type} (ops : ComponentOps V U)
    (c : SpatialComponent V U) : SpatialComponent V U × Option U :=
  if c.value_is_dirty then
    ({ c with value_is_dirty := false }, some (ops.toUpdate c.value))
  else
    ({ c with current_update := none }, c.current_update)

/-- Embeds `SpatialComponent::apply_update_to_value` (line 82): merge an
inbound update into the cached value, dirty state untouched. -/
def SpatialComponent.apply_update_to_value {V U : Type} (ops : ComponentOps V U)
    (c : SpatialComponent V U) (u : U) : SpatialComponent V U :=
  { c with value := ops.mergeData c.value u }

/-- Embeds `SpatialComponent::send_update` (lines 86-97). Returns `none` for
the panic (usage error) taken when the cell is already fully dirty; otherwise
the update is merged into the cached value and accumulated into the pending
update slot. -/
def SpatialComponent.send_update {V U : Type} (ops : ComponentOps V U)
    (c : SpatialComponent V U) (u : U) : Option (SpatialComponent V U) :=
  if c.value_is_dirty then
    none
  else
    some { value := ops.mergeData c.value u
         , value_is_dirty := c.value_is_dirty
         , current_update :=
             match c.current_update with
             | some cu => some (ops.mergeUpdate cu u)
             | none => some u }

/-- Embeds `DerefMut for SpatialComponent` (lines 108-117) together with the
mutation `f` the caller performs through the returned reference. Returns
`none` for the panic (usage error) taken when a pending update is active;
otherwise the fully-dirty flag is set. -/
def SpatialComponent.mutate {V U : Type} (c : SpatialComponent V U)
    (f : V → V) : Option (SpatialComponent V U) :=
  if c.current_update.isSome then
    none
  else
    some { c with value := f c.value, value_is_dirty := true }

/-- The cell invariant of the spec: at most one of the fully-dirty flag and
the pending update is active. -/
def cellInv {V U : Type} (c : SpatialComponent V U) : Prop :=
  ¬(c.value_is_dirty = true ∧ c.current_update.isSome = true)

instance {V U : Type} (c : SpatialComponent V U) : Decidable (cellInv c) := by
  unfold cellInv
  infer_instance

/-! ## The example Player component (src/example/src/generated.rs) -/

/-- The generated `Player` component data. -/
structure Player where
  name : String
  current_direction : Nat
deriving DecidableEq

/-- The generated `PlayerUpdate` value: one optional slot per field. -/
structure PlayerUpdate where
  name : Option String
  current_direction : Option Nat
deriving DecidableEq

/-- Embeds `ComponentData<Player> for Player::merge` (generated.rs lines
77-82): a present field overwrites, an absent field is untouched. -/
def Player.merge (p : Player) (u : PlayerUpdate) : Player :=
  { name :=
      match u.name with
      | some v => v
      | none => p.name
  , current_direction :=
      match u.current_direction with
      | some v => v
      | none => p.current_direction }

/-- Embeds `ComponentUpdate<Player> for PlayerUpdate::merge` (generated.rs
lines 117-122): a present field of the newer update wins. -/
def PlayerUpdate.merge (cu u : PlayerUpdate) : PlayerUpdate :=
  { name := if u.name.isSome then u.name else cu.name
  , current_direction :=
      if u.current_direction.isSome then u.current_direction
      else cu.current_direction }

/-- The `to_update` round trip for `Player`: `Player::to_type` writes both
fields, so `PlayerUpdate::from_type` reads both back as present. -/
def Player.toFullUpdate (p : Player) : PlayerUpdate :=
  { name := some p.name, current_direction := some p.current_direction }

/-- The `ComponentOps` instantiation for the `Player` component. -/
def playerOps : ComponentOps Player PlayerUpdate :=
  { mergeData := Player.merge
  , mergeUpdate := PlayerUpdate.merge
  , toUpdate := Player.toFullUpdate }

/-! ## Theorems for claims C2 and C3 -/

/-- C2: mutably dereferencing a cell while a pending update is active fails
immediately, `send_update` on a fully-dirty cell fails immediately, and every
operation of the cell preserves the invariant that at most one of the
fully-dirty flag and the pending update is active. -/
theorem cell_single_update_path {V U : Type} (ops : ComponentOps V U) :
    (∀ (c : SpatialComponent V U) (f : V → V),
        c.current_update.isSome = true → c.mutate f = none) ∧
    (∀ (c : SpatialComponent V U) (u : U),
        c.value_is_dirty = true → c.send_update ops u = none) ∧
    (∀ (v : V), cellInv (SpatialComponent.new (U := U) v)) ∧
    (∀ (c : SpatialComponent V U) (u : U) (c' : SpatialComponent V U),
        cellInv c → c.send_update ops u = some c' → cellInv c') ∧
    (∀ (c : SpatialComponent V U) (f : V → V) (c' : SpatialComponent V U),
        cellInv c → c.mutate f = some c' → cellInv c') ∧
    (∀ (c : SpatialComponent V U), cellInv c → cellInv (c.replicate ops).1) ∧
    (∀ (c : SpatialComponent V U) (u : U),
        cellInv c → cellInv (c.apply_update_to_value ops u)) := by
  refine ⟨?_, ?_, ?_, ?_, ?_, ?_, ?_⟩
  · intro c f h
    simp [SpatialComponent.mutate, h]
  · intro c u h
    simp [SpatialComponent.send_update, h]
  · intro v
    simp [SpatialComponent.new, cellInv]
  · intro c u c' hinv hsend
    unfold SpatialComponent.send_update at hsend
    by_cases hd : c.value_is_dirty = true
    · rw [if_pos hd] at hsend
      exact absurd hsend (by simp)
    · rw [if_neg hd] at hsend
      have h := Option.some.inj hsend
      subst h
      exact fun hcontra => hd hcontra.1
  · intro c f c' hinv hmut
    unfold SpatialComponent.mutate at hmut
    by_cases hp : c.current_update.isSome = true
    · rw [if_pos hp] at hmut
      exact absurd hmut (by simp)
    · rw [if_neg hp] at hmut
      have h := Option.some.inj hmut
      subst h
      exact fun hcontra => hp hcontra.2
  · intro c hinv
    unfold SpatialComponent.replicate
    by_cases hd : c.value_is_dirty = true
    · rw [if_pos hd]
      exact fun hcontra => by simpa using hcontra.1
    · rw [if_neg hd]
      exact fun hcontra => by simpa using hcontra.2
  · intro c u hinv
    exact fun hcontra => hinv hcontra

/-- Witness for `cell_single_update_path` at concrete Player cells. -/
theorem cell_single_update_path_witness :
    (SpatialComponent.mutate
        (V := Player) (U := PlayerUpdate)
        { value := { name := "a", current_direction := 0 }
        , value_is_dirty := false
        , current_update := some { name := some "b", current_direction := none } }
        id = none) ∧
    (SpatialComponent.send_update playerOps
        { value := { name := "a", current_direction := 0 }
        , value_is_dirty := true
        , current_update := none }
        { name := some "b", current_direction := none } = none) ∧
    cellInv ((SpatialComponent.new (U := PlayerUpdate)
        { name := "a", current_direction := 0 }).replicate playerOps).1 := by
  refine ⟨?_, ?_, ?_⟩
  · exact (cell_single_update_path playerOps).1 _ id (by decide)
  · exact (cell_single_update_path playerOps).2.1 _ _ (by decide)
  · exact (cell_single_update_path playerOps).2.2.2.2.2.1 _
      ((cell_single_update_path playerOps).2.2.1 _)

/-- C3: on a cell satisfying the invariant, `replicate` transmits the full
serialized value and clears the flag when fully dirty, otherwise transmits
the pending update if present and nothing otherwise; afterwards the dirty
flag and the pending update are both cleared, the cached value is unchanged,
and at most one transmission occurred (the result is a single `Option`). -/
theorem cell_replicate_spec {V U : Type} (ops : ComponentOps V U)
    (c : SpatialComponent V U) (hinv : cellInv c) :
    (c.value_is_dirty = true →
        (c.replicate ops).2 = some (ops.toUpdate c.value)) ∧
    (c.value_is_dirty = false →
        (c.replicate ops).2 = c.current_update) ∧
    (c.replicate ops).1.value_is_dirty = false ∧
    (c.replicate ops).1.current_update = none ∧
    (c.replicate ops).1.value = c.value := by
  by_cases hd : c.value_is_dirty = true
  · have hp : c.current_update = none := by
      rcases hcu : c.current_update with _ | u
      · rfl
      · exact absurd ⟨hd, by simp [hcu]⟩ hinv
    refine ⟨fun _ => ?_, fun hcontra => ?_, ?_, ?_, ?_⟩
    · simp [SpatialComponent.replicate, hd]
    · rw [hd] at hcontra
      exact absurd hcontra (by simp)
    · simp [SpatialComponent.replicate, hd]
    · simp [SpatialComponent.replicate, hd, hp]
    · simp [SpatialComponent.replicate, hd]
  · have hd' : c.value_is_dirty = false := by simpa using hd
    refine ⟨fun hcontra => absurd hcontra hd, fun _ => ?_, ?_, ?_, ?_⟩
    · simp [SpatialComponent.replicate, hd']
    · simp [SpatialComponent.replicate, hd']
    · simp [SpatialComponent.replicate, hd']
    · simp [SpatialComponent.replicate, hd']

/-- Witness for `cell_replicate_spec` on a concrete dirty Player cell. -/
theorem cell_replicate_spec_witness :
    (SpatialComponent.replicate playerOps
        { value := { name := "c", current_direction := 3 }
        , value_is_dirty := true
        , current_update := none }).2 =
      some { name := some "c", current_direction := some 3 } := by
  exact (cell_replicate_spec playerOps
    { value := { name := "c", current_direction := 3 }
    , value_is_dirty := true
    , current_update := none } (by decide)).1 rfl

/-! ## Sequences of send_update calls (claim C4) -/

/-- Runs a sequence of `send_update` calls in order, failing if any call
fails. -/
def sendUpdates {V U : Type} (ops : ComponentOps V U) :
    SpatialComponent V U → List U → Option (SpatialComponent V U)
  | c, [] => some c
  | c, u :: us =>
    match c.send_update ops u with
    | some c' => sendUpdates ops c' us
    | none => none

/-- Field-wise merge of a nonempty sequence of updates, in call order. -/
def mergeAll {V U : Type} (ops : ComponentOps V U) (u : U) (us : List U) : U :=
  us.foldl ops.mergeUpdate u

/-- The last present value in a sequence of optional field writes; this is
the last-writer-wins reading of a field across a sequence of updates. -/
def lastSome {α : Type} : List (Option α) → Option α
  | [] => none
  | o :: l =>
    match lastSome l with
    | some v => some v
    | none => o

/-- Applying two Player updates in order to the data equals applying their
field-wise merge once. -/
theorem player_merge_assoc (p : Player) (u1 u2 : PlayerUpdate) :
    (p.merge u1).merge u2 = p.merge (u1.merge u2) := by
  rcases u2 with ⟨n2, d2⟩
  rcases u1 with ⟨n1, d1⟩
  cases n2 <;> cases d2 <;> cases n1 <;> cases d1 <;>
    simp [Player.merge, PlayerUpdate.merge]

theorem lastSome_step {α : Type} (a b : Option α) (l : List (Option α)) :
    lastSome (a :: b :: l) = lastSome ((if b.isSome then b else a) :: l) := by
  rcases hl : lastSome l with _ | v
  · cases b <;> simp [lastSome, hl]
  · cases b <;> simp [lastSome, hl]

theorem mergeAll_name (u : PlayerUpdate) (us : List PlayerUpdate) :
    (mergeAll playerOps u us).name =
      lastSome (u.name :: us.map PlayerUpdate.name) := by
  induction us generalizing u with
  | nil => cases hn : u.name <;> simp [mergeAll, lastSome, hn]
  | cons u1 rest ih =>
    have h := ih (u.merge u1)
    simp only [mergeAll, List.foldl_cons] at h ⊢
    rw [show (playerOps.mergeUpdate u u1) = u.merge u1 from rfl, h]
    rw [List.map_cons, lastSome_step]
    have : (u.merge u1).name = if u1.name.isSome then u1.name else u.name := rfl
    rw [this]

theorem mergeAll_dir (u : PlayerUpdate) (us : List PlayerUpdate) :
    (mergeAll playerOps u us).current_direction =
      lastSome (u.current_direction ::
        us.map PlayerUpdate.current_direction) := by
  induction us generalizing u with
  | nil =>
    cases hn : u.current_direction <;> simp [mergeAll, lastSome, hn]
  | cons u1 rest ih =>
    have h := ih (u.merge u1)
    simp only [mergeAll, List.foldl_cons] at h ⊢
    rw [show (playerOps.mergeUpdate u u1) = u.merge u1 from rfl, h]
    rw [List.map_cons, lastSome_step]
    have : (u.merge u1).current_direction =
        if u1.current_direction.isSome then u1.current_direction
        else u.current_direction := rfl
    rw [this]

theorem sendUpdates_loop (us : List PlayerUpdate) (v : Player)
    (acc : PlayerUpdate) :
    sendUpdates playerOps
        { value := v.merge acc, value_is_dirty := false
        , current_update := some acc } us =
      some { value := v.merge (mergeAll playerOps acc us)
           , value_is_dirty := false
           , current_update := some (mergeAll playerOps acc us) } := by
  induction us generalizing acc with
  | nil => simp [sendUpdates, mergeAll]
  | cons u rest ih =>
    have hstep :
        SpatialComponent.send_update playerOps
            { value := v.merge acc, value_is_dirty := false
            , current_update := some acc } u =
          some { value := v.merge (acc.merge u), value_is_dirty := false
               , current_update := some (acc.merge u) } := by
      simp only [SpatialComponent.send_update]
      rw [if_neg (by simp)]
      rw [show playerOps.mergeData (v.merge acc) u = (v.merge acc).merge u
        from rfl]
      rw [player_merge_assoc]
      rfl
    simp only [sendUpdates, hstep]
    rw [ih (acc.merge u)]
    rfl

/-- C4: starting from a clean cell (not dirty, no pending update), a
sequence of `send_update` calls with no intervening flush succeeds, leaves
the pending update equal to the field-wise merge of the updates in call
order, leaves the cached value equal to that merge applied to the prior
value, and the merged update is, per field, the last written value of that
field in the sequence. -/
theorem sendUpdates_merge_spec (c : SpatialComponent Player PlayerUpdate)
    (hdirty : c.value_is_dirty = false)
    (hpending : c.current_update = none)
    (u : PlayerUpdate) (us : List PlayerUpdate) :
    sendUpdates playerOps c (u :: us) =
      some { value := c.value.merge (mergeAll playerOps u us)
           , value_is_dirty := false
           , current_update := some (mergeAll playerOps u us) } ∧
    (mergeAll playerOps u us).name =
      lastSome ((u :: us).map PlayerUpdate.name) ∧
    (mergeAll playerOps u us).current_direction =
      lastSome ((u :: us).map PlayerUpdate.current_direction) := by
  refine ⟨?_, by simpa using mergeAll_name u us,
    by simpa using mergeAll_dir u us⟩
  have hstep :
      SpatialComponent.send_update playerOps c u =
        some { value := c.value.merge u, value_is_dirty := false
             , current_update := some u } := by
    simp only [SpatialComponent.send_update]
    rw [if_neg (by simp [hdirty]), hpending]
    simp [hdirty]
    rfl
  simp only [sendUpdates, hstep]
  exact sendUpdates_loop us c.value u

/-- Witness for `sendUpdates_merge_spec`: two updates on a clean cell, the
second overwriting the direction only. -/
theorem sendUpdates_merge_spec_witness :
    sendUpdates playerOps
        (SpatialComponent.new { name := "a", current_direction := 0 })
        [{ name := some "b", current_direction := some 1 },
         { name := none, current_direction := some 2 }] =
      some { value := { name := "b", current_direction := 2 }
           , value_is_dirty := false
           , current_update :=
               some { name := some "b", current_direction := some 2 } } := by
  have h := (sendUpdates_merge_spec
    (SpatialComponent.new { name := "a", current_direction := 0 })
    rfl rfl
    { name := some "b", current_direction := some 1 }
    [{ name := none, current_direction := some 2 }]).1
  rw [h]
  rfl

/-! ## Command request ledger (src/src/commands.rs) -/

/-- One pending inbound command request, as stored in the `requests` vector
of `CommandRequestsComp`: request id, deserialized request, caller worker id
and caller attribute set. -/
structure ReqEntry (Req : Type) where
  request_id : Nat
  request : Req
  caller_worker_id : String
  caller_attribute_set : List String
deriving DecidableEq

/-- The `CommandRequestsComp` ledger: pending requests and produced
responses awaiting transmission, each keyed by the original request id. -/
structure CommandRequestsComp (Req Res : Type) where
  requests : List (ReqEntry Req)
  responses : List (Nat × Res)
deriving DecidableEq

/-- Embeds `CommandRequestsComp::on_request` (commands.rs lines 79-88):
append the inbound request to the pending list. -/
def CommandRequestsComp.on_request {Req Res : Type}
    (comp : CommandRequestsComp Req Res) (e : ReqEntry Req) :
    CommandRequestsComp Req Res :=
  { comp with requests := comp.requests ++ [e] }

/-- The loop body of `CommandRequestsComp::respond` (lines 97-116). The
responder is stateful (a Rust `FnMut` closure): it threads a state of type
`S` and may answer with `some` response or leave the request pending with
`none`. Returns the requests left pending, the responses produced in
arrival order, and the final responder state. -/
def respondGo {S Req Res : Type}
    (f : S → Req → String → List String → S × Option Res) :
    S → List (ReqEntry Req) →
      List (ReqEntry Req) × List (Nat × Res) × S
  | s, [] => ([], [], s)
  | s, e :: rest =>
    let r := f s e.request e.caller_worker_id e.caller_attribute_set
    let t := respondGo f r.1 rest
    match r.2 with
    | some resp => (t.1, (e.request_id, resp) :: t.2.1, t.2.2)
    | none => (e :: t.1, t.2.1, t.2.2)

/-- Embeds `CommandRequestsComp::respond`: drains the pending requests, asks
the responder about each in arrival order, keeps the unanswered ones and
appends the produced responses to the response queue. -/
def CommandRequestsComp.respond {S Req Res : Type}
    (comp : CommandRequestsComp Req Res)
    (f : S → Req → String → List String → S × Option Res) (s : S) :
    CommandRequestsComp Req Res × S :=
  let t := respondGo f s comp.requests
  ({ requests := t.1, responses := comp.responses ++ t.2.1 }, t.2.2)

theorem respondGo_requests_sublist {S Req Res : Type}
    (f : S → Req → String → List String → S × Option Res)
    (s : S) (l : List (ReqEntry Req)) :
    (respondGo f s l).1.Sublist l := by
  induction l generalizing s with
  | nil => simp [respondGo]
  | cons e rest ih =>
    simp only [respondGo]
    rcases h : (f s e.request e.caller_worker_id e.caller_attribute_set).2
      with _ | resp
    · simpa [h] using List.Sublist.cons₂ e (ih _)
    · simpa [h] using List.Sublist.cons e (ih _)

theorem respondGo_final_state {S Req Res : Type}
    (f : S → Req → String → List String → S × Option Res)
    (s : S) (l : List (ReqEntry Req)) :
    (respondGo f s l).2.2 =
      l.foldl (fun s e =>
        (f s e.request e.caller_worker_id e.caller_attribute_set).1) s := by
  induction l generalizing s with
  | nil => simp [respondGo]
  | cons e rest ih =>
    simp only [respondGo, List.foldl_cons]
    rcases h : (f s e.request e.caller_worker_id e.caller_attribute_set).2
      with _ | resp <;> simp [h, ih]

/-- Lifts a pure responder (one that captures no mutable state) into the
stateful form used by `respond`. -/
def pureResponder {Req Res : Type}
    (g : Req → String → List String → Option Res) :
    Unit → Req → String → List String → Unit × Option Res :=
  fun _ r c a => ((), g r c a)

theorem respondGo_pure_requests {Req Res : Type}
    (g : Req → String → List String → Option Res)
    (l : List (ReqEntry Req)) :
    (respondGo (pureResponder g) () l).1 =
      l.filter (fun e =>
        (g e.request e.caller_worker_id e.caller_attribute_set).isNone) := by
  induction l with
  | nil => simp [respondGo]
  | cons e rest ih =>
    simp only [respondGo, pureResponder]
    rcases h : g e.request e.caller_worker_id e.caller_attribute_set
      with _ | resp <;> simp [h, ih, List.filter_cons]

theorem respondGo_pure_responses {Req Res : Type}
    (g : Req → String → List String → Option Res)
    (l : List (ReqEntry Req)) :
    (respondGo (pureResponder g) () l).2.1 =
      l.filterMap (fun e =>
        (g e.request e.caller_worker_id e.caller_attribute_set).map
          (fun resp => (e.request_id, resp))) := by
  induction l with
  | nil => simp [respondGo]
  | cons e rest ih =>
    simp only [respondGo, pureResponder]
    rcases h : g e.request e.caller_worker_id e.caller_attribute_set
      with _ | resp <;> simp [h, ih, List.filterMap_cons]

/-- C5: `respond` consults the responder exactly once per pending request in
arrival order (the responder state is folded left over the request list),
the remaining pending requests form a subsequence of the original arrival
order, and for a pure responder the retained requests are exactly the
unanswered ones (in order) while the answered ones are appended to the
response queue in arrival order, keyed by their original request ids. -/
theorem respond_spec {S Req Res : Type}
    (comp : CommandRequestsComp Req Res)
    (f : S → Req → String → List String → S × Option Res) (s : S)
    (g : Req → String → List String → Option Res) :
    (comp.respond f s).1.requests.Sublist comp.requests ∧
    (comp.respond f s).2 =
      comp.requests.foldl (fun s e =>
        (f s e.request e.caller_worker_id e.caller_attribute_set).1) s ∧
    (comp.respond (pureResponder g) ()).1.requests =
      comp.requests.filter (fun e =>
        (g e.request e.caller_worker_id e.caller_attribute_set).isNone) ∧
    (comp.respond (pureResponder g) ()).1.responses =
      comp.responses ++
        comp.requests.filterMap (fun e =>
          (g e.request e.caller_worker_id e.caller_attribute_set).map
            (fun resp => (e.request_id, resp))) := by
  refine ⟨?_, ?_, ?_, ?_⟩
  · exact respondGo_requests_sublist f s comp.requests
  · exact respondGo_final_state f s comp.requests
  · exact respondGo_pure_requests g comp.requests
  · simp only [CommandRequestsComp.respond]
    rw [respondGo_pure_responses g comp.requests]

/-! ## Per-frame response flush and ledger pruning -/

/-- Embeds `CommandRequestsComp::flush_responses` (commands.rs lines
118-122): drains the response queue, returning the transmitted responses in
order. -/
def CommandRequestsComp.flush_responses {Req Res : Type}
    (comp : CommandRequestsComp Req Res) :
    CommandRequestsComp Req Res × List (Nat × Res) :=
  ({ comp with responses := [] }, comp.responses)

/-- Embeds the loop in `ComponentDispatcher::replicate` (component_registry
lines 202-207) that flushes the response queue of every ledger entry. The
ledger storage is a list of (local entity, ledger component) pairs; the
transmitted responses are tagged with their entity. -/
def flushResponsesAll {Req Res : Type}
    (l : List (Nat × CommandRequestsComp Req Res)) :
    List (Nat × CommandRequestsComp Req Res) × List (Nat × Nat × Res) :=
  (l.map (fun p => (p.1, (p.2.flush_responses).1)),
   l.flatMap (fun p => p.2.responses.map (fun r => (p.1, r))))

/-- Embeds `CommandRequestsExt::clear_empty_request_objects` (commands.rs
lines 130-143): drain the storage and reinsert exactly the entries whose
pending request list is non-empty. -/
def clear_empty_request_objects {Req Res : Type}
    (l : List (Nat × CommandRequestsComp Req Res)) :
    List (Nat × CommandRequestsComp Req Res) :=
  l.filter (fun p => !p.2.requests.isEmpty)

/-- The per-type command flush step of `ComponentDispatcher::replicate`:
flush every queued response, then prune empty ledger entries. -/
def commandFlushStep {Req Res : Type}
    (l : List (Nat × CommandRequestsComp Req Res)) :
    List (Nat × CommandRequestsComp Req Res) × List (Nat × Nat × Res) :=
  let f := flushResponsesAll l
  (clear_empty_request_objects f.1, f.2)

/-- C8: at the per-frame prune point (after the response flush that
precedes it inside `replicate`), the prune keeps exactly the ledger entries
whose pending-request queue or response queue is non-empty, unchanged and in
order, i.e. it removes exactly the entries with both queues empty. -/
theorem prune_spec {Req Res : Type}
    (l : List (Nat × CommandRequestsComp Req Res)) :
    (commandFlushStep l).1 =
      (flushResponsesAll l).1.filter (fun p =>
        !(p.2.requests.isEmpty && p.2.responses.isEmpty)) ∧
    (commandFlushStep l).1 =
      (flushResponsesAll l).1.filter (fun p => !p.2.requests.isEmpty) := by
  constructor
  · simp only [commandFlushStep, clear_empty_request_objects,
      flushResponsesAll]
    induction l with
    | nil => simp
    | cons p rest ih =>
      simp only [List.map_cons, List.filter_cons]
      rw [ih]
      rcases hreq : p.2.requests.isEmpty <;>
        simp [CommandRequestsComp.flush_responses, hreq]
  · rfl

/-- C10: within the per-type flush step, every queued response of every
ledger entry is transmitted, the ledger entries handed to the prune all have
empty response queues, and consequently the entries the prune removes hold
no untransmitted queued response. -/
theorem flush_before_prune {Req Res : Type}
    (l : List (Nat × CommandRequestsComp Req Res)) :
    (commandFlushStep l).2 =
      l.flatMap (fun p => p.2.responses.map (fun r => (p.1, r))) ∧
    (flushResponsesAll l).1.map (fun p => p.2.responses) =
      l.map (fun _ => ([] : List (Nat × Res))) ∧
    (commandFlushStep l).1.map (fun p => p.2.responses) =
      (commandFlushStep l).1.map (fun _ => ([] : List (Nat × Res))) := by
  refine ⟨rfl, ?_, ?_⟩
  · induction l with
    | nil => rfl
    | cons p rest ih =>
      simpa [flushResponsesAll, CommandRequestsComp.flush_responses]
        using congrArg (List.cons []) ih
  · simp only [commandFlushStep, clear_empty_request_objects,
      flushResponsesAll]
    induction l with
    | nil => simp
    | cons p rest ih =>
      simp only [List.map_cons, List.filter_cons]
      rcases hreq : p.2.requests.isEmpty <;>
        simp_all [CommandRequestsComp.flush_responses, hreq]

/-! ## Command response correlator (src/src/commands.rs lines 151-209) -/

/-- The status code of an inbound command response operation: a success
carries the (typed) response payload, any other status carries a failure
code. -/
inductive StatusCode (Res : Type) where
  | success (payload : Res)
  | failure (code : Nat)
deriving DecidableEq

/-- An inbound `CommandResponseOp`: the transport-assigned outbound request
id it correlates with, and its status. -/
structure CommandResponseOp (Res : Type) where
  request_id : Nat
  response : StatusCode Res
deriving DecidableEq

/-- What a stored continuation observes when it is invoked, mirroring the
wrapper closure built in `CommandSenderRes::send_command` (lines 161-182):
on success status the decoded typed response, otherwise the failure status
delivered as data. -/
inductive CbResult (Res : Type) where
  | ok (payload : Res)
  | err (code : Nat)
deriving DecidableEq

/-- An observed continuation invocation: which stored continuation fired
(identified by a tag chosen at `send_command` time) and with what result. -/
structure CbEvent (Res : Type) where
  tag : Nat
  result : CbResult Res
deriving DecidableEq

/-- Runs the wrapper closure of `send_command` for the continuation with
the given tag on a response operation. -/
def runCallback {Res : Type} (tag : Nat) (op : CommandResponseOp Res) :
    CbEvent Res :=
  match op.response with
  | .success payload => { tag := tag, result := .ok payload }
  | .failure code => { tag := tag, result := .err code }

/-- The `CommandSenderRes` resource: the map from outbound request id to a
stored continuation (represented by its tag), and the buffer of
not-yet-sent outbound requests (entity id, request, continuation tag). -/
structure CommandSenderRes (Req : Type) where
  callbacks : List (Nat × Nat)
  buffered_requests : List (Int × Req × Nat)
deriving DecidableEq

/-- Looks a continuation tag up in the callback map (`HashMap::get`). -/
def findCb (k : Nat) : List (Nat × Nat) → Option Nat
  | [] => none
  | p :: rest => if p.1 = k then some p.2 else findCb k rest

/-- Removes the binding for a request id (`HashMap::remove`). -/
def removeCb (k : Nat) (l : List (Nat × Nat)) : List (Nat × Nat) :=
  l.filter (fun p => p.1 ≠ k)

/-- Embeds `CommandSenderRes::send_command` (lines 161-182): the request and
its continuation are buffered for transmission. -/
def CommandSenderRes.send_command {Req : Type} (s : CommandSenderRes Req)
    (entity_id : Int) (request : Req) (tag : Nat) : CommandSenderRes Req :=
  { s with buffered_requests :=
      s.buffered_requests ++ [(entity_id, request, tag)] }

/-- Embeds `CommandSenderRes::got_command_response` (lines 184-195): look up
and remove the continuation for the request id of the operation and invoke
it; if none is stored the operation is logged and dropped with no state
change and no invocation. -/
def CommandSenderRes.got_command_response {Req Res : Type}
    (s : CommandSenderRes Req) (op : CommandResponseOp Res) :
    CommandSenderRes Req × List (CbEvent Res) :=
  match findCb op.request_id s.callbacks with
  | some tag =>
    ({ s with callbacks := removeCb op.request_id s.callbacks },
     [runCallback tag op])
  | none => (s, [])

/-- Embeds `CommandSenderRes::flush_requests` (lines 197-208): each buffered
request is transmitted with a transport-assigned request id (modelled as
consecutive ids from `firstId`) and its continuation is recorded under that
id. Returns the new state and the transmitted (request id, entity, request)
triples in order. -/
def CommandSenderRes.flush_requests {Req : Type} (s : CommandSenderRes Req)
    (firstId : Nat) : CommandSenderRes Req × List (Nat × Int × Req) :=
  let rec go (cbs : List (Nat × Nat)) (next : Nat) :
      List (Int × Req × Nat) → List (Nat × Nat) × List (Nat × Int × Req)
    | [] => (cbs, [])
    | (e, r, tag) :: rest =>
      let t := go ((next, tag) :: removeCb next cbs) (next + 1) rest
      (t.1, (next, e, r) :: t.2)
  let t := go s.callbacks firstId s.buffered_requests
  ({ callbacks := t.1, buffered_requests := [] }, t.2)

theorem findCb_removeCb_self (k : Nat) (l : List (Nat × Nat)) :
    findCb k (removeCb k l) = none := by
  induction l with
  | nil => rfl
  | cons p rest ih =>
    by_cases h : p.1 = k
    · simpa [removeCb, h] using ih
    · simpa [removeCb, findCb, h] using ih

theorem findCb_removeCb_ne (k k' : Nat) (l : List (Nat × Nat))
    (h : k' ≠ k) : findCb k' (removeCb k l) = findCb k' l := by
  induction l with
  | nil => rfl
  | cons p rest ih =>
    by_cases hp : p.1 = k
    · rw [show removeCb k (p :: rest) = removeCb k rest by
        simp [removeCb, hp]]
      rw [ih]
      have hne : ¬p.1 = k' := by omega
      rw [show findCb k' (p :: rest) = findCb k' rest by
        simp [findCb, hne]]
    · rw [show removeCb k (p :: rest) = p :: removeCb k rest by
        simp [removeCb, hp]]
      by_cases hp' : p.1 = k'
      · simp [findCb, hp']
      · simp only [findCb, hp', if_false]
        exact ih

/-- C6: when a stored continuation exists for the request id of a response
operation, `got_command_response` invokes exactly that continuation exactly
once — with the decoded payload on success status and with the failure
status as data otherwise — and removes it, leaving all other bindings
untouched; a second response with the same id afterwards, or a response
whose id has no stored continuation, is dropped with no state change and no
invocation. -/
theorem got_command_response_spec {Req Res : Type} :
    (∀ (s : CommandSenderRes Req) (op : CommandResponseOp Res) (tag : Nat),
      findCb op.request_id s.callbacks = some tag →
        (∀ payload, op.response = .success payload →
          (s.got_command_response op).2 =
            [{ tag := tag, result := .ok payload }]) ∧
        (∀ code, op.response = .failure code →
          (s.got_command_response op).2 =
            [{ tag := tag, result := .err code }]) ∧
        findCb op.request_id (s.got_command_response op).1.callbacks =
          none ∧
        (∀ k, k ≠ op.request_id →
          findCb k (s.got_command_response op).1.callbacks =
            findCb k s.callbacks) ∧
        ((s.got_command_response op).1.got_command_response op) =
          ((s.got_command_response op).1, [])) ∧
    (∀ (s : CommandSenderRes Req) (op : CommandResponseOp Res),
      findCb op.request_id s.callbacks = none →
        s.got_command_response op = (s, [])) := by
  constructor
  · intro s op tag h
    have hgot : s.got_command_response op =
        ({ s with callbacks := removeCb op.request_id s.callbacks },
         [runCallback tag op]) := by
      simp [CommandSenderRes.got_command_response, h]
    rw [hgot]
    have hnone : findCb op.request_id
        (removeCb op.request_id s.callbacks) = none :=
      findCb_removeCb_self op.request_id s.callbacks
    refine ⟨?_, ?_, hnone, ?_, ?_⟩
    · intro payload hok
      simp [runCallback, hok]
    · intro code herr
      simp [runCallback, herr]
    · intro k hk
      exact findCb_removeCb_ne op.request_id k s.callbacks hk
    · simp [CommandSenderRes.got_command_response, hnone]
  · intro s op h
    simp [CommandSenderRes.got_command_response, h]

/-- Witness for `got_command_response_spec`: one stored continuation, a
success response for its id, then a duplicate, then an unknown id. -/
theorem got_command_response_spec_witness :
    ((@CommandSenderRes.got_command_response Player Player
        { callbacks := [(42, 0)], buffered_requests := ([] : List (Int × Player × Nat)) }
        { request_id := 42
        , response := .success { name := "p", current_direction := 1 } }).2 =
      [{ tag := 0, result := .ok { name := "p", current_direction := 1 } }]) ∧
    (@CommandSenderRes.got_command_response Player Player
        { callbacks := ([] : List (Nat × Nat))
        , buffered_requests := ([] : List (Int × Player × Nat)) }
        { request_id := 43
        , response := .failure 2 } =
      ({ callbacks := [], buffered_requests := [] }, [])) := by
  constructor
  · exact ((@got_command_response_spec Player Player).1
      _ _ 0 (by decide)).1 _ rfl
  · exact (@got_command_response_spec Player Player).2
      _ _ (by decide)

/-! ## Outbound replication driver (component_registry.rs lines 191-211) -/

/-- The per-component-type state visible to
`ComponentDispatcher::replicate`: the component storage (one cell per
entity possessing the component, in storage order), the authority bit set,
the command sender resource and the command request ledger storage. -/
structure TypeState (V U Req Res : Type) where
  cells : List (Nat × SpatialComponent V U)
  authority : Nat → Bool
  sender : CommandSenderRes Req
  ledgers : List (Nat × CommandRequestsComp Req Res)

/-- Modelled from the spec: storage.rs (the `SpatialWriteStorage` type and
the `AuthorityBitSet` mask it joins with) is not under src/. Per the spec,
the join used by the outbound flush yields the dirty/pending component
cells only for entities that currently hold authority for the type;
entities lacking authority are skipped. -/
def authoritativeJoin {V U : Type} (auth : Nat → Bool)
    (cells : List (Nat × SpatialComponent V U)) :
    List (Nat × SpatialComponent V U) :=
  cells.filter (fun p => auth p.1)

/-- Everything one `ComponentDispatcher::replicate` call hands to the
connection: component updates, command requests and command responses, each
in transmission order. -/
structure Outbound (U Req Res : Type) where
  componentUpdates : List (Nat × U)
  commandRequests : List (Int × Req)
  commandResponses : List (Nat × Nat × Res)
deriving DecidableEq

/-- Embeds `ComponentDispatcher::replicate` (component_registry.rs lines
191-211) for one component type: walk the authority-masked storage join
replicating each joined cell, then flush buffered outbound command
requests, then flush queued command responses and prune empty ledger
entries. Cells outside the join are left untouched. -/
def dispatcherReplicate {V U Req Res : Type} (ops : ComponentOps V U)
    (st : TypeState V U Req Res) :
    TypeState V U Req Res × Outbound U Req Res :=
  let newCells := st.cells.map (fun p =>
    if st.authority p.1 then (p.1, (p.2.replicate ops).1) else p)
  let compTx := st.cells.filterMap (fun p =>
    if st.authority p.1 then ((p.2.replicate ops).2).map (fun u => (p.1, u))
    else none)
  let cmd := commandFlushStep st.ledgers
  ({ cells := newCells
   , authority := st.authority
   , sender := { callbacks := st.sender.callbacks, buffered_requests := [] }
   , ledgers := cmd.1 },
   { componentUpdates := compTx
   , commandRequests := st.sender.buffered_requests.map (fun b => (b.1, b.2.1))
   , commandResponses := cmd.2 })

/-- C1: one per-type outbound flush transmits exactly the updates produced
by replicating the cells of the authority-masked join; an entity lacking
authority keeps its cell unchanged and no component update is transmitted
for it; and the buffered command requests and the queued command responses
are transmitted in full, independently of the authority mask. -/
theorem dispatcherReplicate_authority_gate {V U Req Res : Type}
    (ops : ComponentOps V U) (st : TypeState V U Req Res) :
    (dispatcherReplicate ops st).2.componentUpdates =
      (authoritativeJoin st.authority st.cells).filterMap (fun p =>
        ((p.2.replicate ops).2).map (fun u => (p.1, u))) ∧
    (∀ (e : Nat) (c : SpatialComponent V U), (e, c) ∈ st.cells →
      st.authority e = false →
        (e, c) ∈ (dispatcherReplicate ops st).1.cells ∧
        ∀ u, (e, u) ∉ (dispatcherReplicate ops st).2.componentUpdates) ∧
    (dispatcherReplicate ops st).2.commandRequests =
      st.sender.buffered_requests.map (fun b => (b.1, b.2.1)) ∧
    (dispatcherReplicate ops st).2.commandResponses =
      st.ledgers.flatMap (fun p =>
        p.2.responses.map (fun r => (p.1, r))) ∧
    (∀ auth' : Nat → Bool,
      (dispatcherReplicate ops { st with authority := auth' }).2.commandRequests =
        (dispatcherReplicate ops st).2.commandRequests ∧
      (dispatcherReplicate ops { st with authority := auth' }).2.commandResponses =
        (dispatcherReplicate ops st).2.commandResponses) := by
  refine ⟨?_, ?_, rfl, rfl, fun auth' => ⟨rfl, rfl⟩⟩
  · simp only [dispatcherReplicate, authoritativeJoin]
    induction st.cells with
    | nil => rfl
    | cons p rest ih =>
      rcases hauth : st.authority p.1 <;>
        simp [List.filterMap_cons, List.filter_cons, hauth, ih]
  · intro e c hmem hnoauth
    constructor
    · simp only [dispatcherReplicate]
      have : (if st.authority e then (e, (c.replicate ops).1)
          else (e, c)) = (e, c) := by
        simp [hnoauth]
      exact this ▸ List.mem_map_of_mem _ hmem
    · intro u hu
      simp only [dispatcherReplicate, List.mem_filterMap] at hu
      obtain ⟨p, hp, hval⟩ := hu
      rcases hpa : st.authority p.1
      · simp [hpa] at hval
      · rcases hrep : (p.2.replicate ops).2 with _ | w
        · simp [hpa, hrep] at hval
        · simp [hpa, hrep] at hval
          rw [hval.1] at hpa
          rw [hnoauth] at hpa
          exact Bool.false_ne_true hpa

/-- Witness for `dispatcherReplicate_authority_gate`: a two-entity Player
state where only entity 1 holds authority; the cell of entity 2 is
retained unchanged. -/
theorem dispatcherReplicate_authority_gate_witness :
    ((2 : Nat), SpatialComponent.new (U := PlayerUpdate)
        { name := "b", current_direction := 5 }) ∈
      (dispatcherReplicate playerOps
        { cells :=
            [(1, { value := { name := "a", current_direction := 0 }
                 , value_is_dirty := true, current_update := none })
            ,(2, SpatialComponent.new { name := "b", current_direction := 5 })]
        , authority := fun e => e == 1
        , sender := { callbacks := [], buffered_requests := ([] : List (Int × Player × Nat)) }
        , ledgers := ([] : List (Nat × CommandRequestsComp Player Player)) }).1.cells :=
  ((dispatcherReplicate_authority_gate playerOps _).2.1 2
    (SpatialComponent.new { name := "b", current_direction := 5 })
    (by simp) (by decide)).1

/-! ## Inbound event dispatcher (src/src/spatial_reader.rs) -/

/-- One inbound worker operation, with component payloads carried as the
outcome of the external typed decode step (`Result` in the SDK); the
dispatcher consumes this outcome. Specialized to the `Player` component of
the example schema. -/
inductive WorkerOp where
  | addEntity (entity_id : Int)
  | removeEntity (entity_id : Int)
  | addComponent (component_id : Nat) (entity_id : Int)
      (payload : Except String Player)
  | removeComponent (component_id : Nat) (entity_id : Int)
  | componentUpdate (component_id : Nat) (entity_id : Int)
      (payload : Except String PlayerUpdate)
  | authorityChange (component_id : Nat) (entity_id : Int)
      (authority : Bool)
  | other

/-- Association-list lookup used for the reader maps and storages. -/
def lookupAssoc {κ α : Type} [DecidableEq κ] (k : κ) :
    List (κ × α) → Option α
  | [] => none
  | p :: rest => if p.1 = k then some p.2 else lookupAssoc k rest

/-- Association-list insert-or-replace (specs storage insert / HashMap
insert). -/
def insertAssoc {κ α : Type} [DecidableEq κ] (k : κ) (v : α)
    (l : List (κ × α)) : List (κ × α) :=
  (k, v) :: l.filter (fun p => p.1 ≠ k)

/-- Association-list removal (storage remove). -/
def removeAssoc {κ α : Type} [DecidableEq κ] (k : κ)
    (l : List (κ × α)) : List (κ × α) :=
  l.filter (fun p => p.1 ≠ k)

/-- The state the reader drives: the ECS entity allocator, the live
entities, the remote-id-to-local-handle map owned by `SpatialReader`, and
the `Player` component storage and authority bit set. -/
structure WorldState where
  nextEntity : Nat
  liveEntities : List Nat
  spatial_to_specs_entity : List (Int × Nat)
  playerCells : List (Nat × SpatialComponent Player PlayerUpdate)
  playerAuthority : List (Nat × Bool)
deriving DecidableEq

/-- The empty world before any operation. -/
def initialWorld : WorldState :=
  { nextEntity := 0, liveEntities := [], spatial_to_specs_entity := []
  , playerCells := [], playerAuthority := [] }

/-- The component-type identifiers present in the registry; the example
registers the `Player` component (ID 1002). Unknown identifiers are
ignored by the reader. -/
def registeredIds : List Nat := [1002]

/-- Embeds one iteration of the match in `SpatialReader::process`
(spatial_reader.rs lines 36-101). Panics (`unwrap`, map indexing) are
modelled as `Except.error` with the panic message. On `RemoveEntity` the
local handle is deleted; the `spatial_to_specs_entity` entry is not
removed, because the source never removes from that map. -/
def processOp (w : WorldState) : WorkerOp → Except String WorldState
  | .addEntity eid =>
    .ok { w with
      nextEntity := w.nextEntity + 1
      , liveEntities := w.liveEntities ++ [w.nextEntity]
      , spatial_to_specs_entity :=
          w.spatial_to_specs_entity ++ [(eid, w.nextEntity)] }
  | .removeEntity eid =>
    match lookupAssoc eid w.spatial_to_specs_entity with
    | some e => .ok { w with liveEntities := w.liveEntities.erase e }
    | none => .error "no entry found for key"
  | .addComponent cid eid payload =>
    if registeredIds.contains cid then
      match lookupAssoc eid w.spatial_to_specs_entity with
      | some e =>
        match payload with
        | .ok data =>
          .ok { w with playerCells :=
              insertAssoc e (SpatialComponent.new data) w.playerCells }
        | .error msg => .error msg
      | none => .error "no entry found for key"
    else .ok w
  | .removeComponent cid eid =>
    if registeredIds.contains cid then
      match lookupAssoc eid w.spatial_to_specs_entity with
      | some e => .ok { w with playerCells := removeAssoc e w.playerCells }
      | none => .error "no entry found for key"
    else .ok w
  | .componentUpdate cid eid payload =>
    if registeredIds.contains cid then
      match lookupAssoc eid w.spatial_to_specs_entity with
      | some e =>
        match payload with
        | .ok u =>
          match lookupAssoc e w.playerCells with
          | some c =>
            let c2 := c.apply_update_to_value playerOps u
            .ok { w with playerCells := insertAssoc e c2 w.playerCells }
          | none => .error "called unwrap on a None value"
        | .error msg => .error msg
      | none => .error "no entry found for key"
    else .ok w
  | .authorityChange cid eid a =>
    if registeredIds.contains cid then
      match lookupAssoc eid w.spatial_to_specs_entity with
      | some e =>
        .ok { w with playerAuthority := insertAssoc e a w.playerAuthority }
      | none => .error "no entry found for key"
    else .ok w
  | .other => .ok w

/-- Embeds the loop of `SpatialReader::process` over one batch of
operations, strictly in delivery order; an error (panic) aborts the
batch. -/
def readerProcess (w : WorldState) : List WorkerOp → Except String WorldState
  | [] => .ok w
  | op :: rest =>
    match processOp w op with
    | .ok w' => readerProcess w' rest
    | .error msg => .error msg

/-! ## Theorems for claims C7 and C9 -/

/-- Counterexample to C7: in a batch whose second operation carries a
component payload that fails to decode, the dispatcher loop aborts with the
decode error (the `unwrap` panic) instead of skipping the operation, so the
batch does not complete and the third operation is never processed. -/
theorem decode_failure_aborts_batch_cx :
    readerProcess initialWorld
        [WorkerOp.addEntity 1,
         WorkerOp.addComponent 1002 1 (Except.error "malformed payload"),
         WorkerOp.addEntity 2] =
      Except.error "malformed payload" := by
  rfl

/-- C7 amended: an operation whose component payload fails to decode aborts
the dispatcher loop with the descriptive decode error message; the
offending operation is not skipped and no later operation of the batch is
processed (the outcome does not depend on the remaining operations). -/
theorem decode_failure_aborts_batch (w : WorldState) (cid : Nat) (eid : Int)
    (e : Nat) (msg : String) (rest : List WorkerOp)
    (hreg : registeredIds.contains cid = true)
    (hmap : lookupAssoc eid w.spatial_to_specs_entity = some e) :
    readerProcess w
        (WorkerOp.addComponent cid eid (Except.error msg) :: rest) =
      Except.error msg := by
  simp only [readerProcess, processOp, hreg, if_true, hmap]

/-- Witness for `decode_failure_aborts_batch`. -/
theorem decode_failure_aborts_batch_witness :
    readerProcess
        { initialWorld with spatial_to_specs_entity := [(4, 0)] }
        [WorkerOp.addComponent 1002 4 (Except.error "bad field"),
         WorkerOp.addEntity 9] =
      Except.error "bad field" :=
  decode_failure_aborts_batch _ 1002 4 0 "bad field" [WorkerOp.addEntity 9]
    (by decide) (by decide)

/-- Counterexample to C9: adding remote entity 7 and then processing its
remove-entity operation deletes the local handle but leaves the identity
mapping entry for 7 in place, so the mapping still contains the removed
remote identifier. -/
theorem removeEntity_keeps_mapping_cx :
    readerProcess initialWorld
        [WorkerOp.addEntity 7, WorkerOp.removeEntity 7] =
      Except.ok
        { nextEntity := 1, liveEntities := []
        , spatial_to_specs_entity := [(7, 0)]
        , playerCells := [], playerAuthority := [] } ∧
    (readerProcess initialWorld
        [WorkerOp.addEntity 7, WorkerOp.removeEntity 7]).map
      (fun w => lookupAssoc 7 w.spatial_to_specs_entity) =
      Except.ok (some 0) := by
  exact ⟨rfl, rfl⟩

/-- C9 amended: processing an entity-removed operation for a mapped remote
identifier deletes the local entity handle; the identity mapping (and all
other state) is left unchanged, so the mapping still contains the removed
remote identifier afterwards. -/
theorem removeEntity_amended (w : WorldState) (eid : Int) (e : Nat)
    (hmap : lookupAssoc eid w.spatial_to_specs_entity = some e) :
    readerProcess w [WorkerOp.removeEntity eid] =
      Except.ok { w with liveEntities := w.liveEntities.erase e } := by
  simp only [readerProcess, processOp, hmap]

/-- Witness for `removeEntity_amended`. -/
theorem removeEntity_amended_witness :
    readerProcess
        { initialWorld with
            liveEntities := [0], spatial_to_specs_entity := [(7, 0)] }
        [WorkerOp.removeEntity 7] =
      Except.ok
        { nextEntity := 0, liveEntities := []
        , spatial_to_specs_entity := [(7, 0)]
        , playerCells := [], playerAuthority := [] } :=
  removeEntity_amended
    { initialWorld with
        liveEntities := [0], spatial_to_specs_entity := [(7, 0)] }
    7 0 (by decide)

end SpatialSpecs
